import Mathlib

set_option maxHeartbeats 1000000

/-!
Shallow embedding of the Creative Composition & Brand-Compliance Engine of
the campaign-creative pipeline, together with the frontend form and
progress-dashboard state logic from
src/frontend/src/components/CampaignForm.jsx.

The engine itself (backend processors and validators) is not part of the
sources under verification; every engine definition below is therefore
modelled from the specification, as stated in its doc comment.  Frontend
definitions are translated directly from the JSX source.
-/

/- ===================== JavaScript string model (CampaignForm.jsx) ====== -/

/-- JavaScript String.prototype.split with a single comma separator, over
the string's characters.  Splitting the empty string yields one empty
piece, exactly as in JS. -/
def jsSplitComma : List Char → List (List Char)
  | [] => [[]]
  | c :: rest =>
    let r := jsSplitComma rest
    if c = ',' then [] :: r
    else
      match r with
      | [] => [[c]]
      | h :: t => (c :: h) :: t

/-- JavaScript String.prototype.trim: strip leading and trailing
whitespace characters. -/
def jsTrim (cs : List Char) : List Char :=
  ((cs.dropWhile Char.isWhitespace).reverse.dropWhile Char.isWhitespace).reverse

/-- CampaignForm.jsx lines 333-338: the brand-colors text input onChange
handler stores the value of the expression
value.split(',').map(c => c.trim()) into formData.brand_colors, and
handleSubmit (lines 118-121) forwards formData verbatim to the engine
caller.  No validation of any kind is applied to the entries. -/
def parseBrandColorsInput (s : String) : List String :=
  (jsSplitComma s.toList).map (fun cs => String.mk (jsTrim cs))

/-- CampaignForm.jsx line 63: the characters removed from a YAML
brand_colors value before splitting (the regex class of square brackets
and both quote characters). -/
def yamlStripped (c : Char) : Bool :=
  c = '[' || c = ']' || c = Char.ofNat 34 || c = Char.ofNat 39

/-- CampaignForm.jsx lines 61-63: YAML brand_colors value parsing: an
empty value gives the empty list (JS falsiness of the empty string),
otherwise brackets and quotes are removed, the rest is split on commas,
each piece is trimmed, and empty pieces are dropped.  Again no hex
validation occurs. -/
def parseBrandColorsYaml (s : String) : List String :=
  if s.toList = [] then []
  else
    ((jsSplitComma (s.toList.filter (fun c => !yamlStripped c))).map
      (fun cs => String.mk (jsTrim cs))).filter (fun t => t != "")

/-- A hexadecimal digit character. -/
def isHexDigitChar (c : Char) : Bool :=
  c.isDigit || ('a' ≤ c && c ≤ 'f') || ('A' ≤ c && c ≤ 'F')

/-- Modelled from the spec: a syntactically well-formed hex color string
in the brand-palette sense, a hash sign followed by six hexadecimal
digits. -/
def isValidHexColor (s : String) : Bool :=
  match s.toList with
  | c :: rest => c = '#' && rest.length = 6 && rest.all isHexDigitChar
  | [] => false

/- ===================== CampaignForm products state (CampaignForm.jsx) == -/

structure ProductEntry where
  name : String
  description : String
  existing_assets : List String
  deriving DecidableEq

def emptyProduct : ProductEntry := ⟨"", "", []⟩

/-- CampaignForm.jsx lines 5-15: the initial formData.products state holds
exactly two blank products. -/
def initialProducts : List ProductEntry := [emptyProduct, emptyProduct]

/-- CampaignForm.jsx lines 104-109: addProduct appends one blank product. -/
def addProduct (ps : List ProductEntry) : List ProductEntry := ps ++ [emptyProduct]

/-- CampaignForm.jsx lines 111-116: removeProduct filters out the entry at
the given index, but only when the current length is strictly greater
than 2. -/
def removeProduct (ps : List ProductEntry) (i : ℕ) : List ProductEntry :=
  if 2 < ps.length then ps.eraseIdx i else ps

/-- CampaignForm.jsx lines 98-102: handleProductChange replaces one field
of the product at the given index; modelled as an arbitrary per-product
update, which preserves the list length.  Out-of-range indices are
modelled as no-ops (the rendered UI only produces in-range indices). -/
def changeProduct (ps : List ProductEntry) (i : ℕ) (g : ProductEntry → ProductEntry) :
    List ProductEntry :=
  match ps.get? i with
  | some p => ps.set i (g p)
  | none => ps

/-- CampaignForm.jsx lines 80-88: merging a loaded file into the form uses
the expression data.products || formData.products; a products list parsed
from the file (any JS array is truthy, so any length, including 0 and 1)
replaces the current one, and an absent field keeps the current list. -/
def mergeLoadedProducts (loaded : Option (List ProductEntry)) (ps : List ProductEntry) :
    List ProductEntry :=
  loaded.getD ps

/-- Form states reachable through every products-list transition of
CampaignForm.jsx, including loading a campaign file. -/
inductive FormReachable : List ProductEntry → Prop
  | init : FormReachable initialProducts
  | add {ps} : FormReachable ps → FormReachable (addProduct ps)
  | remove {ps} (i : ℕ) : FormReachable ps → FormReachable (removeProduct ps i)
  | change {ps} (i : ℕ) (g : ProductEntry → ProductEntry) :
      FormReachable ps → FormReachable (changeProduct ps i g)
  | load {ps} (d : Option (List ProductEntry)) :
      FormReachable ps → FormReachable (mergeLoadedProducts d ps)

/-- Form states reachable through the in-form transitions only (add,
remove, per-field change), excluding the load-from-file feature. -/
inductive FormReachableNoLoad : List ProductEntry → Prop
  | init : FormReachableNoLoad initialProducts
  | add {ps} : FormReachableNoLoad ps → FormReachableNoLoad (addProduct ps)
  | remove {ps} (i : ℕ) : FormReachableNoLoad ps → FormReachableNoLoad (removeProduct ps i)
  | change {ps} (i : ℕ) (g : ProductEntry → ProductEntry) :
      FormReachableNoLoad ps → FormReachableNoLoad (changeProduct ps i g)

/-- A one-product list as parsed from a loaded campaign file. -/
def loadedOneProduct : List ProductEntry := [⟨"Solo", "only one product", []⟩]

/- ===================== ProgressDashboard polling (CampaignForm.jsx) ===== -/

inductive PollAction
  | complete
  | recordError
  | poll
  | idle
  deriving DecidableEq

/-- ProgressDashboard checkStatus, CampaignForm.jsx lines 423-442: after
fetching the campaign status, a completed status invokes onComplete, a
failed status records the error, and exactly the processing and queued
statuses schedule another poll via setTimeout; any other status does
nothing further. -/
def checkStatusAction (s : String) : PollAction :=
  if s = "completed" then .complete
  else if s = "failed" then .recordError
  else if s = "processing" ∨ s = "queued" then .poll
  else .idle

/- ===================== engine data model (modelled from the spec) ====== -/

/-- RGB color with rational channels in 0..255.  Pixel data is integral;
rational channels keep region means exact. -/
abbrev Color := ℚ × ℚ × ℚ

def blackC : Color := (0, 0, 0)

def whiteC : Color := (255, 255, 255)

def redC : Color := (255, 0, 0)

/-- An image buffer: explicit width and height plus a pixel function. -/
structure Image where
  width : ℕ
  height : ℕ
  pixel : ℕ → ℕ → Color

/-- A sub-rectangle of an image. -/
structure Rect where
  x : ℕ
  y : ℕ
  w : ℕ
  h : ℕ
  deriving DecidableEq

inductive AspectRatio
  | square
  | portrait
  | landscape
  deriving DecidableEq

/-- Modelled from the spec: the fixed target pixel dimensions of the three
aspect-ratio specs. -/
def aspectDims : AspectRatio → ℕ × ℕ
  | .square => (1080, 1080)
  | .portrait => (1080, 1920)
  | .landscape => (1920, 1080)

/-- The nominal ratio numbers of each aspect-ratio spec. -/
def aspectNums : AspectRatio → ℕ × ℕ
  | .square => (1, 1)
  | .portrait => (9, 16)
  | .landscape => (16, 9)

def cropImage (img : Image) (x0 y0 cw ch : ℕ) : Image :=
  ⟨cw, ch, fun x y => img.pixel (x0 + x) (y0 + y)⟩

/-- Modelled from the spec (section 4.5; creative_composer.smart_crop is
not under src/): the largest centered rectangle matching the target ratio
within the source bounds, with integer truncation of the cropped extent. -/
def smart_crop (img : Image) (t : AspectRatio) : Image :=
  if img.height * (aspectNums t).1 ≤ img.width * (aspectNums t).2 then
    cropImage img
      ((img.width - img.height * (aspectNums t).1 / (aspectNums t).2) / 2) 0
      (img.height * (aspectNums t).1 / (aspectNums t).2) img.height
  else
    cropImage img 0
      ((img.height - img.width * (aspectNums t).2 / (aspectNums t).1) / 2)
      img.width (img.width * (aspectNums t).2 / (aspectNums t).1)

/-- Modelled from the spec: resize to the exact target dimensions with a
high-quality resampling filter; resampling is modelled as
nearest-neighbour sampling, which has the same dimension behaviour. -/
def resize_to_dimensions (img : Image) (d : ℕ × ℕ) : Image :=
  ⟨d.1, d.2, fun x y => img.pixel (x * img.width / d.1) (y * img.height / d.2)⟩

/-- All pixels of a rectangular region, in row-major order. -/
def regionPixels (img : Image) (r : Rect) : List Color :=
  (List.range r.h).flatMap fun dy =>
    (List.range r.w).map fun dx => img.pixel (r.x + dx) (r.y + dy)

def brightnessOf (c : Color) : ℚ := (c.1 + c.2.1 + c.2.2) / 3

/-- Mean brightness over a region; 0 on an empty region. -/
def meanBrightness (img : Image) (r : Rect) : ℚ :=
  if (regionPixels img r).length = 0 then 0
  else ((regionPixels img r).map brightnessOf).sum / (regionPixels img r).length

/- ===================== compliance scorer (modelled from the spec) ====== -/

inductive RecColor
  | white
  | dark
  deriving DecidableEq

structure ReadabilityResult where
  brightness : ℚ
  readable : Bool
  recommended : RecColor
  deriving DecidableEq

/-- The known text region sampled by the readability check: the bottom
band of the final creative (the composer anchors text in the lower
portion by default). -/
def textBand (img : Image) : Rect :=
  ⟨0, 7 * img.height / 10, img.width, img.height - 7 * img.height / 10⟩

/-- Modelled from the spec (section 4.6;
brand_compliance.validate_text_readability is not under src/): sample the
mean brightness within the known text region; readable iff the brightness
falls outside the dead band 130..145; brightness below 130 favours white
text, otherwise dark text is recommended. -/
def readabilityCheck (img : Image) : ReadabilityResult :=
  ⟨meanBrightness img (textBand img),
   decide (meanBrightness img (textBand img) < 130) ||
     decide (145 < meanBrightness img (textBand img)),
   if meanBrightness img (textBand img) < 130 then .white else .dark⟩

/-- Squared Euclidean distance between two RGB colors. -/
def colorDist2 (a b : Color) : ℚ :=
  (a.1 - b.1) ^ 2 + (a.2.1 - b.2.1) ^ 2 + (a.2.2 - b.2.2) ^ 2

def bumpCount (h : List (Color × ℕ)) (c : Color) : List (Color × ℕ) :=
  match h with
  | [] => [(c, 1)]
  | (d, n) :: t => if d = c then (d, n + 1) :: t else (d, n) :: bumpCount t c

def histogramOf (ps : List Color) : List (Color × ℕ) := ps.foldl bumpCount []

def insertByCount (e : Color × ℕ) : List (Color × ℕ) → List (Color × ℕ)
  | [] => [e]
  | f :: t => if f.2 ≤ e.2 then e :: f :: t else f :: insertByCount e t

def sortByCountDesc (h : List (Color × ℕ)) : List (Color × ℕ) :=
  h.foldr insertByCount []

/-- Modelled from the spec: quantize the image's colors into a bounded
palette of at most 32 buckets; modelled as the exact-color histogram
truncated to its 32 most numerous buckets. -/
def quantized (ps : List Color) : List (Color × ℕ) :=
  (sortByCountDesc (histogramOf ps)).take 32

/-- Modelled from the spec: a bucket matches the brand palette when its
normalized Euclidean distance to some brand color is within the default
tolerance (at least 75 percent similarity, i.e. distance at most a
quarter of the maximal distance).  Compared on squared distances so the
test is exact over the rationals. -/
def bucketMatches (palette : List Color) (c : Color) : Bool :=
  palette.any fun p => decide (colorDist2 c p * 16 ≤ 3 * 255 ^ 2)

/-- Modelled from the spec: per-bucket similarity percentage against the
nearest brand color, on the squared-distance scale. -/
def bestSimilarityPct (palette : List Color) (c : Color) : ℚ :=
  (palette.map fun p => 100 * (1 - colorDist2 c p / (3 * 255 ^ 2))).foldr max 0

structure ColorCheckResult where
  checked : Bool
  coverage : ℚ
  avgSimilarity : ℚ
  passed : Bool
  deriving DecidableEq

/-- Modelled from the spec (section 4.6; brand_compliance.validate_colors
is not under src/): quantize the pre-overlay buffer, count pixels of
buckets matching the palette, coverage as a percentage of all pixels;
passes at 20 percent coverage. -/
def colorCheck (img : Image) (palette : List Color) : ColorCheckResult :=
  ⟨true,
   if (regionPixels img ⟨0, 0, img.width, img.height⟩).length = 0 then 0
   else (100 * ((((quantized (regionPixels img ⟨0, 0, img.width, img.height⟩)).filter
       fun e => bucketMatches palette e.1).map fun e => e.2).sum : ℕ)) /
     (regionPixels img ⟨0, 0, img.width, img.height⟩).length,
   if ((quantized (regionPixels img ⟨0, 0, img.width, img.height⟩)).filter
       fun e => bucketMatches palette e.1).length = 0 then 0
   else (((quantized (regionPixels img ⟨0, 0, img.width, img.height⟩)).filter
       fun e => bucketMatches palette e.1).map
         fun e => bestSimilarityPct palette e.1).sum /
     ((quantized (regionPixels img ⟨0, 0, img.width, img.height⟩)).filter
       fun e => bucketMatches palette e.1).length,
   decide ((20 : ℚ) ≤
     (if (regionPixels img ⟨0, 0, img.width, img.height⟩).length = 0 then 0
      else (100 * ((((quantized (regionPixels img ⟨0, 0, img.width, img.height⟩)).filter
          fun e => bucketMatches palette e.1).map fun e => e.2).sum : ℕ)) /
        (regionPixels img ⟨0, 0, img.width, img.height⟩).length))⟩

structure ComplianceReport where
  colors : ColorCheckResult
  readability : ReadabilityResult
  overall_score : ℚ
  compliant : Bool
  deriving DecidableEq

/-- Modelled from the spec (section 4.6, score; brand_compliance is not
under src/): colors are checked on the pre-overlay buffer and readability
on the final buffer; each contributes up to 50 points proportionally to
its sub-metric; an empty brand palette skips the color check entirely
(checked false) and the overall score derives solely from the readability
sub-metric scaled to 100.  The scorer is a total function: a missing
palette is a configuration state, never an error. -/
def score (pre final : Image) (palette : List Color) : ComplianceReport :=
  if palette.isEmpty then
    ⟨⟨false, 0, 0, false⟩, readabilityCheck final,
     (if (readabilityCheck final).readable = true then (1 : ℚ) else 0) * 100,
     decide ((70 : ℚ) ≤
       (if (readabilityCheck final).readable = true then (1 : ℚ) else 0) * 100)⟩
  else
    ⟨colorCheck pre palette, readabilityCheck final,
     50 * min ((colorCheck pre palette).coverage / 20) 1 +
       50 * (if (readabilityCheck final).readable = true then (1 : ℚ) else 0),
     decide ((70 : ℚ) ≤
       50 * min ((colorCheck pre palette).coverage / 20) 1 +
         50 * (if (readabilityCheck final).readable = true then (1 : ℚ) else 0))⟩

/-- A concrete final buffer whose text band is pure black. -/
def blackBandImg : Image := ⟨4, 4, fun _ _ => blackC⟩

/-- A concrete final buffer whose text band has mean brightness exactly
135. -/
def grayBandImg : Image := ⟨2, 2, fun _ _ => (135, 135, 135)⟩

/- ===================== color science (modelled from the spec) ========== -/

/-- Modelled from the spec (color_utils.relative_luminance is not under
src/): WCAG sRGB channel linearization; the channel in 0..255 is scaled
to 0..1 and gamma expanded piecewise (linear below 0.03928, else the 2.4
power curve). -/
noncomputable def srgbLinear (c : ℚ) : ℝ :=
  if c / 255 ≤ 0.03928 then ((c / 255 / 12.92 : ℚ) : ℝ)
  else (((c / 255 + 0.055) / 1.055 : ℚ) : ℝ) ^ (2.4 : ℝ)

/-- Modelled from the spec: WCAG relative luminance of an RGB color. -/
noncomputable def relative_luminance (c : Color) : ℝ :=
  0.2126 * srgbLinear c.1 + 0.7152 * srgbLinear c.2.1 + 0.0722 * srgbLinear c.2.2

/-- Modelled from the spec (color_utils.calculate_contrast_ratio is not
under src/): WCAG contrast ratio of two colors. -/
noncomputable def wcagContrast (a b : Color) : ℝ :=
  (max (relative_luminance a) (relative_luminance b) + 0.05) /
    (min (relative_luminance a) (relative_luminance b) + 0.05)

/-- A foreground/background pair with its realized contrast ratio. -/
structure ColorPair where
  fg : Color
  bg : Color
  ratioVal : ℝ

/-- Modelled from the spec (section 4.2): the candidate pairs tried by the
selector: each palette color as text against the region mean background,
plus the inverse direction, the palette color as background with black or
white text. -/
def candidatePairs (bgc : Color) (palette : List Color) : List (Color × Color) :=
  palette.map (fun p => (p, bgc)) ++
    palette.flatMap (fun p => [(blackC, p), (whiteC, p)])

/-- The candidates meeting the 7:1 AAA threshold. -/
noncomputable def qualifyingPairs (bgc : Color) (palette : List Color) :
    List (Color × Color) :=
  (candidatePairs bgc palette).filter fun pr =>
    decide ((7 : ℝ) ≤ wcagContrast pr.1 pr.2)

/-- Modelled from the spec (section 4.2; color_analyzer.select_text_colors
is not under src/): keep the qualifying candidate with the highest
contrast ratio; if none qualifies, or no palette is supplied, fall back
to white text when the background luminance is below 0.5 and black text
otherwise.  The pair always carries its realized contrast ratio. -/
noncomputable def select_colors (bgc : Color) (palette : List Color) : ColorPair :=
  match (qualifyingPairs bgc palette).argmax (fun pr => wcagContrast pr.1 pr.2) with
  | some pr => ⟨pr.1, pr.2, wcagContrast pr.1 pr.2⟩
  | none =>
    if relative_luminance bgc < 1 / 2 then ⟨whiteC, bgc, wcagContrast whiteC bgc⟩
    else ⟨blackC, bgc, wcagContrast blackC bgc⟩

/- ===================== region analyzer (modelled from the spec) ======== -/

/-- Mean color of a pixel list; black on an empty list (the documented
zero-denominator special case). -/
def meanColorOf (ps : List Color) : Color :=
  if ps.length = 0 then blackC
  else ((ps.map fun c => c.1).sum / ps.length,
    (ps.map fun c => c.2.1).sum / ps.length,
    (ps.map fun c => c.2.2).sum / ps.length)

/-- Color variance of a pixel list: mean squared Euclidean distance from
the mean color; 0 on an empty list. -/
def varianceOf (ps : List Color) : ℚ :=
  if ps.length = 0 then 0
  else (ps.map fun c => colorDist2 c (meanColorOf ps)).sum / ps.length

def regionMeanColor (img : Image) (r : Rect) : Color :=
  meanColorOf (regionPixels img r)

/-- Modelled from the spec (section 4.1): the six fixed candidate
placements in declaration order — four corners, bottom-center, center —
each a band of about 30 percent of the image height and 40 percent of its
width, clamped inside the image bounds. -/
def candidateRegions (img : Image) : List Rect :=
  [⟨0, 0, min (max 1 (2 * img.width / 5)) img.width,
      min (max 1 (3 * img.height / 10)) img.height⟩,
   ⟨img.width - min (max 1 (2 * img.width / 5)) img.width, 0,
      min (max 1 (2 * img.width / 5)) img.width,
      min (max 1 (3 * img.height / 10)) img.height⟩,
   ⟨0, img.height - min (max 1 (3 * img.height / 10)) img.height,
      min (max 1 (2 * img.width / 5)) img.width,
      min (max 1 (3 * img.height / 10)) img.height⟩,
   ⟨img.width - min (max 1 (2 * img.width / 5)) img.width,
      img.height - min (max 1 (3 * img.height / 10)) img.height,
      min (max 1 (2 * img.width / 5)) img.width,
      min (max 1 (3 * img.height / 10)) img.height⟩,
   ⟨(img.width - min (max 1 (2 * img.width / 5)) img.width) / 2,
      img.height - min (max 1 (3 * img.height / 10)) img.height,
      min (max 1 (2 * img.width / 5)) img.width,
      min (max 1 (3 * img.height / 10)) img.height⟩,
   ⟨(img.width - min (max 1 (2 * img.width / 5)) img.width) / 2,
      (img.height - min (max 1 (3 * img.height / 10)) img.height) / 2,
      min (max 1 (2 * img.width / 5)) img.width,
      min (max 1 (3 * img.height / 10)) img.height⟩]

/-- Contrast headroom of a region mean color: the best contrast
achievable with pure black or pure white text against it. -/
noncomputable def contrastHeadroom (c : Color) : ℝ :=
  max (wcagContrast blackC c) (wcagContrast whiteC c)

/-- Modelled from the spec (section 4.1): composite candidate score, 0.3
times normalized uniformity (lower variance scores higher) plus 0.7 times
normalized contrast headroom (out of the maximal ratio 21). -/
noncomputable def regionScore (img : Image) (r : Rect) : ℝ :=
  0.3 * ((1 / (1 + varianceOf (regionPixels img r)) : ℚ) : ℝ) +
    0.7 * (contrastHeadroom (meanColorOf (regionPixels img r)) / 21)

/-- Modelled from the spec (section 4.1;
text_layout_engine.find_best_text_region is not under src/): the
highest-scoring candidate, ties broken by declaration order; the full
image rectangle is the (unreachable) default for an empty candidate
list. -/
noncomputable def find_best_region (img : Image) : Rect :=
  ((candidateRegions img).argmax (regionScore img)).getD ⟨0, 0, img.width, img.height⟩

/-- The region lies inside the image bounds. -/
def rectInBounds (r : Rect) (img : Image) : Prop :=
  r.x + r.w ≤ img.width ∧ r.y + r.h ≤ img.height

/- ===================== gradient renderer (modelled from the spec) ====== -/

inductive EdgeAnchor
  | top
  | bottom
  | left
  | right
  deriving DecidableEq

/-- Modelled from the spec (section 4.3): the image edge nearest the text
region, with ties resolved toward the bottom (text regions default to the
lower band), then top, then left. -/
def nearestEdge (W H : ℕ) (r : Rect) : EdgeAnchor :=
  if H - (r.y + r.h) ≤ r.y ∧ H - (r.y + r.h) ≤ r.x ∧
      H - (r.y + r.h) ≤ W - (r.x + r.w) then .bottom
  else if r.y ≤ r.x ∧ r.y ≤ W - (r.x + r.w) then .top
  else if r.x ≤ W - (r.x + r.w) then .left
  else .right

/-- Pixel distance from the anchor edge along the gradient axis. -/
def distFromEdge (e : EdgeAnchor) (W H x y : ℕ) : ℕ :=
  match e with
  | .top => y
  | .bottom => H - 1 - y
  | .left => x
  | .right => W - 1 - x

/-- Extent of the image along the gradient axis. -/
def axisExtent (e : EdgeAnchor) (W H : ℕ) : ℕ :=
  match e with
  | .top => H
  | .bottom => H
  | .left => W
  | .right => W

/-- Modelled from the spec (section 4.3): exponential ease-out decay,
full at 0, fully transparent from 1 on. -/
noncomputable def expoDecay (t : ℝ) : ℝ :=
  if 1 ≤ t then 0 else (2 : ℝ) ^ (-(10 * t))

/-- Modelled from the spec (section 4.3;
gradient_renderer.create_directional_gradient is not under src/): the
directional alpha mask; the alpha at a pixel is the peak alpha times the
ease-out decay of its distance from the anchor edge divided by the span
(the configured fraction of the axis extent).  The scrim color does not
influence the mask. -/
noncomputable def render_gradient (W H : ℕ) (region : Rect) (_color : Color)
    (peak frac : ℝ) : ℕ → ℕ → ℝ :=
  fun x y =>
    peak * expoDecay ((distFromEdge (nearestEdge W H region) W H x y : ℝ) /
      (frac * (axisExtent (nearestEdge W H region) W H : ℝ)))

/- ===================== composer (modelled from the spec) =============== -/

/-- Modelled from the spec (font resolution): per-language font lookup in
the installed-font table supplied to the engine; a miss degrades to the
fallback font with a warning, never a failure. -/
def findFont (fonts : List (String × String)) (lang : String) : Option String :=
  (fonts.find? fun e => decide (e.1 = lang)).map fun e => e.2

/-- The per-pair output of the composer: the pre-overlay buffer plus the
composition data of the final creative (chosen region, chosen color pair,
gradient mask) and the non-fatal warnings.  Flattening the overlay into
8-bit pixels is the external imaging library's compositing step and glyph
rasterization, not modelled here. -/
structure PairResult where
  preOverlay : Image
  region : Rect
  colors : ColorPair
  mask : ℕ → ℕ → ℝ
  warnings : List String

/-- The per-pair failure marker: an input error that makes this pair's
output impossible (an empty message for the language). -/
inductive PairFailure
  | emptyMessage (lang : String)
  deriving DecidableEq

/-- Modelled from the spec (sections 4.5 and 7): one (aspect, language)
work item.  An empty message is rejected as a per-pair failure; a missing
script font only produces a warning.  Everything else follows the
documented pipeline: smart crop, resize, region analysis, color
selection, gradient, layout. -/
noncomputable def processPair (fonts : List (String × String)) (src : Image)
    (palette : List Color) (a : AspectRatio) (lang msg : String) :
    Except PairFailure PairResult :=
  if jsTrim msg.toList = [] then .error (.emptyMessage lang)
  else
    .ok ⟨resize_to_dimensions (smart_crop src a) (aspectDims a),
      find_best_region (resize_to_dimensions (smart_crop src a) (aspectDims a)),
      select_colors
        (regionMeanColor (resize_to_dimensions (smart_crop src a) (aspectDims a))
          (find_best_region (resize_to_dimensions (smart_crop src a) (aspectDims a))))
        palette,
      render_gradient (aspectDims a).1 (aspectDims a).2
        (find_best_region (resize_to_dimensions (smart_crop src a) (aspectDims a)))
        blackC 150 (3 / 5),
      match findFont fonts lang with
      | some _ => []
      | none => ["no script font for " ++ lang ++ ", used fallback"]⟩

abbrev PairKey := AspectRatio × String

/-- The (aspect, language) work items in deterministic order. -/
def pairKeys (aspects : List AspectRatio) (langs : List String) : List PairKey :=
  aspects.flatMap fun a => langs.map fun l => (a, l)

/-- The composer applied to an explicit key list: every pair is produced
independently from the immutable source image and palette. -/
noncomputable def createOn (fonts : List (String × String)) (src : Image)
    (palette : List Color) (msgs : String → String) (keys : List PairKey) :
    List (PairKey × Except PairFailure PairResult) :=
  keys.map fun q => (q, processPair fonts src palette q.1 q.2 (msgs q.2))

/-- Modelled from the spec (section 4.5; creative_composer
.create_localized_variations is not under src/): results for all (aspect,
language) pairs, keyed by pair; per-pair failures are recorded in the
pair's own entry, never thrown. -/
noncomputable def create_variations (fonts : List (String × String)) (src : Image)
    (palette : List Color) (msgs : String → String) (aspects : List AspectRatio)
    (langs : List String) : List (PairKey × Except PairFailure PairResult) :=
  createOn fonts src palette msgs (pairKeys aspects langs)

/-- Result lookup by (aspect, language) key. -/
def lookupPair {α : Type} (entries : List (PairKey × α)) (q : PairKey) : Option α :=
  (entries.find? fun e => decide (e.1 = q)).map fun e => e.2

/-- A concrete 100x100 all-white test image. -/
def testImg : Image := ⟨100, 100, fun _ _ => whiteC⟩

/- ===================== helper lemmas (strings and lists) =============== -/

theorem dropWhile_self_idem (p : Char → Bool) (l : List Char) :
    (l.dropWhile p).dropWhile p = l.dropWhile p := by
  induction l with
  | nil => rfl
  | cons c t ih =>
    by_cases h : p c = true
    · rw [List.dropWhile_cons_of_pos h]; exact ih
    · rw [List.dropWhile_cons_of_neg h, List.dropWhile_cons_of_neg h]

theorem dropWhile_append_exists (p : Char → Bool) (l : List Char) :
    ∃ u, u ++ l.dropWhile p = l := by
  induction l with
  | nil => exact ⟨[], rfl⟩
  | cons c t ih =>
    by_cases h : p c = true
    · obtain ⟨u, hu⟩ := ih
      exact ⟨c :: u, by rw [List.dropWhile_cons_of_pos h, List.cons_append, hu]⟩
    · exact ⟨[], by rw [List.dropWhile_cons_of_neg h, List.nil_append]⟩

theorem dropWhile_length_le (p : Char → Bool) (l : List Char) :
    (l.dropWhile p).length ≤ l.length := by
  obtain ⟨u, hu⟩ := dropWhile_append_exists p l
  have h := congrArg List.length hu
  simp only [List.length_append] at h
  omega

theorem jsTrim_idem (cs : List Char) : jsTrim (jsTrim cs) = jsTrim cs := by
  set p := Char.isWhitespace with hp
  set A := cs.dropWhile p with hA
  have hAidem : A.dropWhile p = A := dropWhile_self_idem p cs
  have hR : jsTrim cs = (A.reverse.dropWhile p).reverse := rfl
  set R := (A.reverse.dropWhile p).reverse with hRdef
  -- R is an initial segment of A
  obtain ⟨u, hu⟩ := dropWhile_append_exists p A.reverse
  have hAsplit : A = R ++ u.reverse := by
    have := congrArg List.reverse hu
    rw [List.reverse_append, List.reverse_reverse] at this
    exact this.symm
  -- hence R itself has no leading whitespace
  have hRdrop : R.dropWhile p = R := by
    cases hRc : R with
    | nil => rfl
    | cons c t =>
      have hpc : p c = false := by
        cases h : p c
        · rfl
        · exfalso
          have hstep : A.dropWhile p = (t ++ u.reverse).dropWhile p := by
            rw [hAsplit, hRc, List.cons_append, List.dropWhile_cons_of_pos h]
          have hlenEq := congrArg List.length (hAidem.symm.trans hstep)
          have hle := dropWhile_length_le p (t ++ u.reverse)
          have h2 : (t ++ u.reverse).length = t.length + u.length := by
            simp [List.length_append]
          have h3 : A.length = t.length + u.length + 1 := by
            rw [hAsplit, hRc]
            simp [List.length_append]
          omega
      rw [List.dropWhile_cons_of_neg (by rw [hpc]; exact Bool.false_ne_true)]
  -- and the reverse of R has no leading whitespace either
  have hRrev : R.reverse.dropWhile p = R.reverse := by
    rw [hRdef, List.reverse_reverse]
    exact dropWhile_self_idem p A.reverse
  show ((R.dropWhile p).reverse.dropWhile p).reverse = R
  rw [hRdrop, hRrev, List.reverse_reverse]

/- ===================== C3 theorems ==================================== -/

/-- C3 counterexample: the raw brand-colors input notacolor reaches the
submitted brand_colors list unchanged, and it is not a well-formed hex
color string; the caller validates nothing. -/
theorem brand_colors_unvalidated_counterexample :
    "notacolor" ∈ parseBrandColorsInput "notacolor" ∧
      isValidHexColor "notacolor" = false := by
  constructor
  · have h : parseBrandColorsInput "notacolor" = ["notacolor"] := rfl
    rw [h]
    exact List.mem_singleton_self _
  · rfl

/-- C3 (amended): every brand-palette entry submitted by the form is a
whitespace-trimmed comma-separated token of the caller's raw input — the
caller trims but performs no hex-format validation, so an entry is
well-formed only if the user typed it so. -/
theorem brand_colors_entries_trimmed (s c : String)
    (hc : c ∈ parseBrandColorsInput s) : jsTrim c.toList = c.toList := by
  obtain ⟨cs, _, hrfl⟩ := List.mem_map.mp hc
  have hmk : (String.mk (jsTrim cs)).toList = jsTrim cs := rfl
  rw [← hrfl, hmk]
  exact jsTrim_idem cs

/-- C3 witness: a concrete submission in which the theorem applies. -/
theorem brand_colors_entries_trimmed_witness :
    jsTrim ("#007AFF".toList) = "#007AFF".toList :=
  brand_colors_entries_trimmed "#007AFF, #FFFFFF" "#007AFF"
    (by have h : parseBrandColorsInput "#007AFF, #FFFFFF" = ["#007AFF", "#FFFFFF"] := rfl
        rw [h]; exact List.mem_cons_self _ _)

/- ===================== C9 theorems ==================================== -/

/-- C9 counterexample: loading a campaign file whose products list has a
single entry drives the form into a reachable state with fewer than 2
products, so the claimed invariant fails for the full transition system. -/
theorem products_min_two_counterexample :
    FormReachable loadedOneProduct ∧ loadedOneProduct.length < 2 :=
  ⟨FormReachable.load (some loadedOneProduct) FormReachable.init, by decide⟩

/-- C9 (amended): over the in-form transitions (initial state, addProduct,
removeProduct, per-field change) the products list never has fewer than 2
entries; only the load-from-file transition can break the minimum. -/
theorem products_min_two_invariant (ps : List ProductEntry)
    (h : FormReachableNoLoad ps) : 2 ≤ ps.length := by
  induction h with
  | init => decide
  | add _ ih => simpa [addProduct] using Nat.le_succ_of_le ih
  | @remove ps i _ ih =>
    unfold removeProduct
    by_cases hlen : 2 < ps.length
    · rw [if_pos hlen]
      by_cases hi : i < ps.length
      · have := List.length_eraseIdx_add_one hi
        omega
      · rw [List.eraseIdx_of_length_le (Nat.le_of_not_lt hi)]
        exact ih
    · rw [if_neg hlen]; exact ih
  | @change ps i g _ ih =>
    unfold changeProduct
    cases hget : ps.get? i with
    | none => exact ih
    | some p => rw [List.length_set]; exact ih

/-- C9 witness: a concrete in-form reachable state satisfying the
invariant. -/
theorem products_min_two_invariant_witness :
    2 ≤ (addProduct initialProducts).length :=
  products_min_two_invariant _ (FormReachableNoLoad.add FormReachableNoLoad.init)

/- ===================== C10 theorem ==================================== -/

/-- C10: checkStatus schedules another poll exactly when the fetched
status is processing or queued; a completed status triggers the
onComplete action and a failed status records the error, and neither
terminal status ever polls again. -/
theorem progress_polling_spec (s : String) :
    (checkStatusAction s = PollAction.poll ↔ (s = "processing" ∨ s = "queued"))
    ∧ checkStatusAction "completed" = PollAction.complete
    ∧ checkStatusAction "failed" = PollAction.recordError
    ∧ ((s = "completed" ∨ s = "failed") → checkStatusAction s ≠ PollAction.poll) := by
  refine ⟨?_, rfl, rfl, ?_⟩
  · unfold checkStatusAction
    split_ifs with h1 h2 h3
    · simp only [reduceCtorEq, false_iff]
      intro h
      rcases h with h | h <;> rw [h1] at h <;> simp at h
    · simp only [reduceCtorEq, false_iff]
      intro h
      rcases h with h | h <;> rw [h2] at h <;> simp at h
    · simp only [true_iff]
      exact h3
    · simp only [reduceCtorEq, false_iff]
      exact h3
  · intro h
    rcases h with h | h <;> subst h <;> decide

/-- C10 witness: at the terminal status completed, no further poll is
scheduled. -/
theorem progress_polling_spec_witness :
    checkStatusAction "completed" ≠ PollAction.poll :=
  (progress_polling_spec "completed").2.2.2 (Or.inl rfl)

/- ===================== C2 theorem ===================================== -/

/-- C2: smart-crop followed by resize always yields exactly the fixed
pixel dimensions of the target aspect-ratio spec, for every source image
of any dimensions; and the spec table is the fixed set 1:1 to 1080x1080,
9:16 to 1080x1920, 16:9 to 1920x1080. -/
theorem smart_crop_resize_dims (img : Image) (t : AspectRatio) :
    ((resize_to_dimensions (smart_crop img t) (aspectDims t)).width,
      (resize_to_dimensions (smart_crop img t) (aspectDims t)).height) = aspectDims t
    ∧ aspectDims AspectRatio.square = (1080, 1080)
    ∧ aspectDims AspectRatio.portrait = (1080, 1920)
    ∧ aspectDims AspectRatio.landscape = (1920, 1080) :=
  ⟨rfl, rfl, rfl, rfl⟩

/- ===================== C4 theorems ==================================== -/

/-- C4: the readability check reports readable exactly when the mean
brightness of the text region falls outside the band 130..145; an
all-black text region is readable with white text recommended; a text
region of mean brightness exactly 135 is not readable. -/
theorem readability_band_spec (img : Image) :
    ((readabilityCheck img).readable = true ↔
      (meanBrightness img (textBand img) < 130 ∨ 145 < meanBrightness img (textBand img)))
    ∧ ((regionPixels img (textBand img) ≠ [] ∧
          ∀ c ∈ regionPixels img (textBand img), c = blackC) →
        (readabilityCheck img).readable = true ∧
          (readabilityCheck img).recommended = RecColor.white)
    ∧ (meanBrightness img (textBand img) = 135 →
        (readabilityCheck img).readable = false) := by
  refine ⟨?_, ?_, ?_⟩
  · simp [readabilityCheck]
  · rintro ⟨hne, hall⟩
    have hb : meanBrightness img (textBand img) = 0 := by
      unfold meanBrightness
      rw [if_neg (by simpa using hne)]
      have hsum : ((regionPixels img (textBand img)).map brightnessOf).sum = 0 := by
        apply List.sum_eq_zero
        intro x hx
        obtain ⟨c, hc, hcx⟩ := List.mem_map.mp hx
        rw [← hcx, hall c hc]
        norm_num [brightnessOf, blackC]
      rw [hsum, zero_div]
    constructor
    · simp [readabilityCheck, hb]
    · unfold readabilityCheck
      rw [hb, if_pos (by norm_num)]
  · intro hb
    unfold readabilityCheck
    simp only [hb]
    rw [decide_eq_false (by norm_num), decide_eq_false (by norm_num)]
    rfl

/-- C4 witness: the concrete all-black and exactly-135 text regions. -/
theorem readability_band_spec_witness :
    (readabilityCheck blackBandImg).readable = true ∧
      (readabilityCheck blackBandImg).recommended = RecColor.white ∧
      (readabilityCheck grayBandImg).readable = false := by
  refine ⟨((readability_band_spec blackBandImg).2.1 ⟨by decide, by decide⟩).1,
    ((readability_band_spec blackBandImg).2.1 ⟨by decide, by decide⟩).2,
    (readability_band_spec grayBandImg).2.2 ?_⟩
  have hps : regionPixels grayBandImg (textBand grayBandImg) =
      [(135, 135, 135), (135, 135, 135)] := rfl
  unfold meanBrightness
  rw [hps]
  norm_num [brightnessOf]

/- ===================== C5 theorem ===================================== -/

/-- C5: scoring with an empty brand palette never fails: the color check
is reported unchecked and the overall score derives solely from the
readability sub-metric scaled to 100 — in particular the report does not
depend on the pre-overlay buffer at all. -/
theorem score_empty_palette (pre final : Image) :
    (score pre final []).colors.checked = false
    ∧ (score pre final []).overall_score =
        (if (readabilityCheck final).readable = true then (1 : ℚ) else 0) * 100
    ∧ ∀ pre2 : Image, score pre final [] = score pre2 final [] :=
  ⟨rfl, rfl, fun _ => rfl⟩

/- ===================== color science lemmas =========================== -/

theorem srgbLinear_zero : srgbLinear 0 = 0 := by
  unfold srgbLinear
  rw [if_pos (by norm_num)]
  norm_num

theorem srgbLinear_255 : srgbLinear 255 = 1 := by
  unfold srgbLinear
  rw [if_neg (by norm_num)]
  have h : ((255 : ℚ) / 255 + 0.055) / 1.055 = 1 := by norm_num
  rw [h, Rat.cast_one]
  exact Real.one_rpow _

theorem lum_black : relative_luminance blackC = 0 := by
  show 0.2126 * srgbLinear 0 + 0.7152 * srgbLinear 0 + 0.0722 * srgbLinear 0 = 0
  rw [srgbLinear_zero]
  ring

theorem lum_white : relative_luminance whiteC = 1 := by
  show 0.2126 * srgbLinear 255 + 0.7152 * srgbLinear 255 + 0.0722 * srgbLinear 255 = 1
  rw [srgbLinear_255]
  norm_num

theorem lum_red : relative_luminance redC = 0.2126 := by
  show 0.2126 * srgbLinear 255 + 0.7152 * srgbLinear 0 + 0.0722 * srgbLinear 0 = 0.2126
  rw [srgbLinear_255, srgbLinear_zero]
  norm_num

theorem contrast_white_black : wcagContrast whiteC blackC = 21 := by
  unfold wcagContrast
  rw [lum_white, lum_black]
  rw [max_eq_left (by norm_num : (0 : ℝ) ≤ 1), min_eq_right (by norm_num : (0 : ℝ) ≤ 1)]
  norm_num

theorem contrast_white_red_lt : wcagContrast whiteC redC < 9 / 2 := by
  unfold wcagContrast
  rw [lum_white, lum_red]
  rw [max_eq_left (by norm_num : (0.2126 : ℝ) ≤ 1),
    min_eq_right (by norm_num : (0.2126 : ℝ) ≤ 1)]
  norm_num

theorem contrast_black_fallback_ge (bgc : Color)
    (h : 1 / 2 ≤ relative_luminance bgc) :
    (9 : ℝ) / 2 ≤ wcagContrast blackC bgc := by
  unfold wcagContrast
  rw [lum_black]
  have h0 : (0 : ℝ) ≤ relative_luminance bgc := le_trans (by norm_num) h
  rw [max_eq_right h0, min_eq_left h0]
  rw [le_div_iff₀ (by norm_num : (0 : ℝ) < 0 + 0.05)]
  linarith

theorem select_colors_of_argmax_none (bgc : Color) (P : List Color)
    (hm : (qualifyingPairs bgc P).argmax (fun pr => wcagContrast pr.1 pr.2) = none) :
    select_colors bgc P =
      if relative_luminance bgc < 1 / 2 then ⟨whiteC, bgc, wcagContrast whiteC bgc⟩
      else ⟨blackC, bgc, wcagContrast blackC bgc⟩ := by
  unfold select_colors
  rw [hm]

theorem select_colors_of_argmax_some (bgc : Color) (P : List Color) (m : Color × Color)
    (hm : (qualifyingPairs bgc P).argmax (fun pr => wcagContrast pr.1 pr.2) = some m) :
    select_colors bgc P = ⟨m.1, m.2, wcagContrast m.1 m.2⟩ := by
  unfold select_colors
  rw [hm]

/- ===================== C1 theorems ==================================== -/

/-- C1 counterexample: with no qualifying candidate and a pure red
background (relative luminance 0.2126, below the 0.5 threshold) the
luminance-directed fallback chooses white text, yet the realized contrast
ratio is 1.05 / 0.2626, which is about 4.0 — strictly below the claimed
4.5 bound.  The fallback does NOT always yield at least 4.5:1. -/
theorem select_colors_fallback_counterexample :
    (select_colors redC []).fg = whiteC ∧ (select_colors redC []).bg = redC ∧
      (select_colors redC []).ratioVal < 9 / 2 := by
  have hm : (qualifyingPairs redC []).argmax (fun pr => wcagContrast pr.1 pr.2)
      = none := rfl
  have hlum : relative_luminance redC < 1 / 2 := by
    rw [lum_red]
    norm_num
  have hsel : select_colors redC [] = ⟨whiteC, redC, wcagContrast whiteC redC⟩ := by
    rw [select_colors_of_argmax_none redC [] hm, if_pos hlum]
  rw [hsel]
  exact ⟨rfl, rfl, contrast_white_red_lt⟩

/-- C1 (amended): select_colors returns a pair of contrast ratio at least
7.0 whenever some candidate in the palette (or its black/white
complement) achieves 7.0; otherwise it returns the luminance-directed
fallback (white text below background luminance 0.5, else black text);
the black-text fallback always realizes a ratio of at least 4.5, but the
white-text fallback may realize less than 4.5. -/
theorem select_colors_spec (bgc : Color) (P : List Color) :
    ((∃ pr ∈ candidatePairs bgc P, (7 : ℝ) ≤ wcagContrast pr.1 pr.2) →
        (7 : ℝ) ≤ (select_colors bgc P).ratioVal)
    ∧ ((∀ pr ∈ candidatePairs bgc P, wcagContrast pr.1 pr.2 < 7) →
        relative_luminance bgc < 1 / 2 →
        select_colors bgc P = ⟨whiteC, bgc, wcagContrast whiteC bgc⟩)
    ∧ ((∀ pr ∈ candidatePairs bgc P, wcagContrast pr.1 pr.2 < 7) →
        1 / 2 ≤ relative_luminance bgc →
        select_colors bgc P = ⟨blackC, bgc, wcagContrast blackC bgc⟩ ∧
          (9 : ℝ) / 2 ≤ (select_colors bgc P).ratioVal) := by
  have hmemq : ∀ pr, pr ∈ qualifyingPairs bgc P ↔
      pr ∈ candidatePairs bgc P ∧ (7 : ℝ) ≤ wcagContrast pr.1 pr.2 := by
    intro pr
    simp [qualifyingPairs, List.mem_filter]
  have hnil : (∀ pr ∈ candidatePairs bgc P, wcagContrast pr.1 pr.2 < 7) →
      (qualifyingPairs bgc P).argmax (fun pr => wcagContrast pr.1 pr.2) = none := by
    intro hlt
    have hq : qualifyingPairs bgc P = [] := by
      unfold qualifyingPairs
      rw [List.filter_eq_nil_iff]
      intro a ha
      simp only [decide_eq_true_eq, not_le]
      exact hlt a ha
    rw [hq]
    rfl
  refine ⟨?_, ?_, ?_⟩
  · rintro ⟨pr, hpr, hge⟩
    have hq : pr ∈ qualifyingPairs bgc P := (hmemq pr).mpr ⟨hpr, hge⟩
    cases hm : (qualifyingPairs bgc P).argmax (fun pr => wcagContrast pr.1 pr.2) with
    | none =>
      rw [List.argmax_eq_none] at hm
      rw [hm] at hq
      cases hq
    | some m =>
      have hmq : m ∈ qualifyingPairs bgc P :=
        List.argmax_mem (Option.mem_def.mpr hm)
      have h7 : (7 : ℝ) ≤ wcagContrast m.1 m.2 := ((hmemq m).mp hmq).2
      simpa [select_colors, hm] using h7
  · intro hlt hlum
    rw [select_colors_of_argmax_none bgc P (hnil hlt), if_pos hlum]
  · intro hlt hlum
    have hlum2 : ¬relative_luminance bgc < 1 / 2 := not_lt.mpr hlum
    have hsel : select_colors bgc P = ⟨blackC, bgc, wcagContrast blackC bgc⟩ := by
      rw [select_colors_of_argmax_none bgc P (hnil hlt), if_neg hlum2]
    refine ⟨hsel, ?_⟩
    rw [hsel]
    exact contrast_black_fallback_ge bgc hlum

/-- C1 witness: a qualifying white-on-black palette candidate realizes at
least 7.0, and the black-text fallback on a white background realizes at
least 4.5. -/
theorem select_colors_spec_witness :
    (7 : ℝ) ≤ (select_colors blackC [whiteC]).ratioVal ∧
      (9 : ℝ) / 2 ≤ (select_colors whiteC []).ratioVal := by
  constructor
  · refine (select_colors_spec blackC [whiteC]).1 ⟨(whiteC, blackC), ?_, ?_⟩
    · simp [candidatePairs]
    · show (7 : ℝ) ≤ wcagContrast whiteC blackC
      rw [contrast_white_black]
      norm_num
  · exact ((select_colors_spec whiteC []).2.2
      (fun pr hpr => by simp [candidatePairs] at hpr)
      (by rw [lum_white]; norm_num)).2

/- ===================== gradient lemmas and C6 ========================= -/

theorem expoDecay_nonneg (t : ℝ) : 0 ≤ expoDecay t := by
  unfold expoDecay
  split_ifs
  · exact le_refl 0
  · exact Real.rpow_nonneg (by norm_num) _

theorem expoDecay_anti {a b : ℝ} (hab : a ≤ b) : expoDecay b ≤ expoDecay a := by
  unfold expoDecay
  split_ifs with hb ha ha
  · exact le_refl 0
  · exact Real.rpow_nonneg (by norm_num) _
  · exact absurd (le_trans ha hab) hb
  · exact (Real.rpow_le_rpow_left_iff one_lt_two).mpr (by linarith)

theorem expoDecay_at_zero : expoDecay 0 = 1 := by
  unfold expoDecay
  rw [if_neg (by norm_num)]
  rw [show -(10 * (0 : ℝ)) = 0 by norm_num, Real.rpow_zero]

theorem expoDecay_at_one : expoDecay 1 = 0 := by
  unfold expoDecay
  rw [if_pos le_rfl]

/-- C6: the gradient alpha mask is monotonically non-increasing moving
away from the anchor edge: a position farther from the anchor edge never
has larger alpha; the alpha is maximal (the peak) at the anchor edge and
exactly zero at the far end of the gradient span. -/
theorem render_gradient_monotone (W H : ℕ) (region : Rect) (c : Color)
    (peak frac : ℝ) (x1 y1 x2 y2 : ℕ) (hp : 0 ≤ peak) (hf : 0 ≤ frac) :
    (distFromEdge (nearestEdge W H region) W H x1 y1 ≤
        distFromEdge (nearestEdge W H region) W H x2 y2 →
      render_gradient W H region c peak frac x2 y2 ≤
        render_gradient W H region c peak frac x1 y1)
    ∧ (distFromEdge (nearestEdge W H region) W H x1 y1 = 0 →
        render_gradient W H region c peak frac x1 y1 = peak)
    ∧ (0 < frac * (axisExtent (nearestEdge W H region) W H : ℝ) →
        (distFromEdge (nearestEdge W H region) W H x1 y1 : ℝ) =
          frac * (axisExtent (nearestEdge W H region) W H : ℝ) →
        render_gradient W H region c peak frac x1 y1 = 0) := by
  have hS0 : 0 ≤ frac * (axisExtent (nearestEdge W H region) W H : ℝ) :=
    mul_nonneg hf (Nat.cast_nonneg _)
  refine ⟨?_, ?_, ?_⟩
  · intro hd
    unfold render_gradient
    apply mul_le_mul_of_nonneg_left _ hp
    apply expoDecay_anti
    rcases eq_or_lt_of_le hS0 with h0 | h0
    · rw [← h0, div_zero, div_zero]
    · exact (div_le_div_iff_of_pos_right h0).mpr (Nat.cast_le.mpr hd)
  · intro hd
    unfold render_gradient
    rw [hd, Nat.cast_zero, zero_div, expoDecay_at_zero, mul_one]
  · intro hpos heq
    unfold render_gradient
    rw [heq, div_self (ne_of_gt hpos), expoDecay_at_one, mul_zero]

/-- C6 witness: a portrait-sized creative with a bottom-anchored text
region; a pixel 119 rows above the bottom edge has alpha at most that of
a pixel on the bottom edge, where the alpha equals the peak 150. -/
theorem render_gradient_monotone_witness :
    render_gradient 1080 1920 ⟨100, 1600, 880, 300⟩ blackC 150 (1 / 2) 0 1800 ≤
        render_gradient 1080 1920 ⟨100, 1600, 880, 300⟩ blackC 150 (1 / 2) 0 1919 ∧
      render_gradient 1080 1920 ⟨100, 1600, 880, 300⟩ blackC 150 (1 / 2) 0 1919 = 150 :=
  ⟨(render_gradient_monotone 1080 1920 ⟨100, 1600, 880, 300⟩ blackC 150 (1 / 2)
      0 1919 0 1800 (by norm_num) (by norm_num)).1 (by decide),
   (render_gradient_monotone 1080 1920 ⟨100, 1600, 880, 300⟩ blackC 150 (1 / 2)
      0 1919 0 1800 (by norm_num) (by norm_num)).2.1 (by decide)⟩

/- ===================== region analyzer lemmas and C7 ================== -/

theorem image_ext (img img2 : Image) (hw : img.width = img2.width)
    (hh : img.height = img2.height)
    (hpx : ∀ x y, img.pixel x y = img2.pixel x y) : img = img2 := by
  cases img with
  | mk w h px =>
    cases img2 with
    | mk w2 h2 px2 =>
      dsimp only at hw hh hpx
      subst hw
      subst hh
      have hfn : px = px2 := by
        funext x y
        exact hpx x y
      rw [hfn]

theorem candidates_inBounds (img : Image) :
    ∀ r ∈ candidateRegions img, rectInBounds r img := by
  intro r hr
  have hbw : min (max 1 (2 * img.width / 5)) img.width ≤ img.width :=
    min_le_right _ _
  have hbh : min (max 1 (3 * img.height / 10)) img.height ≤ img.height :=
    min_le_right _ _
  have hdw := Nat.div_le_self
    (img.width - min (max 1 (2 * img.width / 5)) img.width) 2
  have hdh := Nat.div_le_self
    (img.height - min (max 1 (3 * img.height / 10)) img.height) 2
  simp only [candidateRegions, List.mem_cons, List.not_mem_nil, or_false] at hr
  unfold rectInBounds
  rcases hr with h | h | h | h | h | h <;> subst h <;> dsimp only <;>
    exact ⟨by omega, by omega⟩

/-- C7: find_best_region is deterministic and total: images with equal
dimensions and pointwise-equal pixel data yield the same region; the
result is always one of the six fixed candidates and lies clamped inside
the image bounds (also on degenerate near-zero-size images); it maximizes
the candidate score; and among equal-scoring candidates the earliest in
declaration order (corners before center) is selected. -/
theorem find_best_region_spec (img : Image) :
    (∀ img2 : Image, img.width = img2.width → img.height = img2.height →
        (∀ x y, img.pixel x y = img2.pixel x y) →
        find_best_region img = find_best_region img2)
    ∧ find_best_region img ∈ candidateRegions img
    ∧ rectInBounds (find_best_region img) img
    ∧ (∀ r ∈ candidateRegions img,
        regionScore img r ≤ regionScore img (find_best_region img))
    ∧ (∀ r ∈ candidateRegions img,
        regionScore img (find_best_region img) ≤ regionScore img r →
        (candidateRegions img).indexOf (find_best_region img) ≤
          (candidateRegions img).indexOf r) := by
  have hne : candidateRegions img ≠ [] := by simp [candidateRegions]
  obtain ⟨m, hm⟩ : ∃ m, (candidateRegions img).argmax (regionScore img) = some m := by
    cases h : (candidateRegions img).argmax (regionScore img) with
    | none => exact absurd (List.argmax_eq_none.mp h) hne
    | some m2 => exact ⟨m2, rfl⟩
  have hmm : m ∈ (candidateRegions img).argmax (regionScore img) :=
    Option.mem_def.mpr hm
  have hfbr : find_best_region img = m := by
    unfold find_best_region
    rw [hm]
    rfl
  refine ⟨?_, ?_, ?_, ?_, ?_⟩
  · intro img2 hw hh hpx
    rw [image_ext img img2 hw hh hpx]
  · rw [hfbr]
    exact List.argmax_mem hmm
  · rw [hfbr]
    exact candidates_inBounds img m (List.argmax_mem hmm)
  · intro r hr
    rw [hfbr]
    exact List.le_of_mem_argmax hr hmm
  · intro r hr hle
    rw [hfbr] at hle ⊢
    exact List.index_of_argmax hmm hr hle

/-- C7 witness: on a concrete all-white image the selected region is a
candidate and lies inside the image bounds. -/
theorem find_best_region_spec_witness :
    find_best_region testImg ∈ candidateRegions testImg ∧
      rectInBounds (find_best_region testImg) testImg :=
  ⟨(find_best_region_spec testImg).2.1, (find_best_region_spec testImg).2.2.1⟩

/- ===================== composer lemmas and C8 ========================= -/

theorem lookup_createOn (fonts : List (String × String)) (src : Image)
    (palette : List Color) (msgs : String → String) (keys : List PairKey)
    (q : PairKey) (hq : q ∈ keys) :
    lookupPair (createOn fonts src palette msgs keys) q =
      some (processPair fonts src palette q.1 q.2 (msgs q.2)) := by
  induction keys with
  | nil => cases hq
  | cons k t ih =>
    by_cases hkq : k = q
    · subst hkq
      unfold createOn lookupPair
      rw [List.map_cons, List.find?_cons_of_pos _ (by simp)]
      rfl
    · have hqt : q ∈ t := by
        rcases List.mem_cons.mp hq with h | h
        · exact absurd h.symm hkq
        · exact h
      unfold createOn lookupPair at ih ⊢
      rw [List.map_cons, List.find?_cons_of_neg _ (by simp [hkq])]
      exact ih hqt

/-- C8: in create_variations, each (aspect, language) pair's entry is
exactly its own processPair result, computed from the immutable source
image and palette alone; removing any other (possibly failing) pair p
from the work list leaves q's entry identical; and a pair failure is
surfaced as that pair's own error marker in the result map — it is a
value, never an exception aborting siblings. -/
theorem create_variations_isolated (fonts : List (String × String)) (src : Image)
    (palette : List Color) (msgs : String → String) (aspects : List AspectRatio)
    (langs : List String) (p q : PairKey) (hq : q ∈ pairKeys aspects langs) :
    lookupPair (create_variations fonts src palette msgs aspects langs) q =
        some (processPair fonts src palette q.1 q.2 (msgs q.2))
    ∧ (q ≠ p →
        lookupPair (createOn fonts src palette msgs
            ((pairKeys aspects langs).erase p)) q =
          lookupPair (create_variations fonts src palette msgs aspects langs) q)
    ∧ (∀ f : PairFailure,
        processPair fonts src palette q.1 q.2 (msgs q.2) = Except.error f →
        lookupPair (create_variations fonts src palette msgs aspects langs) q =
          some (Except.error f)) := by
  have h1 : lookupPair (create_variations fonts src palette msgs aspects langs) q =
      some (processPair fonts src palette q.1 q.2 (msgs q.2)) :=
    lookup_createOn fonts src palette msgs (pairKeys aspects langs) q hq
  refine ⟨h1, ?_, ?_⟩
  · intro hne
    have hq2 : q ∈ (pairKeys aspects langs).erase p :=
      (List.mem_erase_of_ne hne).mpr hq
    rw [lookup_createOn fonts src palette msgs _ q hq2, h1]
  · intro f hf
    rw [h1, hf]

/-- C8 witness: a concrete run with one aspect and two languages in which
the Arabic pair fails (empty message) while the English pair's entry is
its own result both with and without the failing sibling in the work
list, and the failure appears as the Arabic pair's own error marker. -/
theorem create_variations_isolated_witness :
    lookupPair (create_variations [] testImg []
          (fun l => if l = "ar" then "" else "hello") [AspectRatio.square]
          ["en", "ar"]) (AspectRatio.square, "en") =
        some (processPair [] testImg [] AspectRatio.square "en"
          (if ("en" : String) = "ar" then "" else "hello"))
    ∧ lookupPair (createOn [] testImg []
          (fun l => if l = "ar" then "" else "hello")
          ((pairKeys [AspectRatio.square] ["en", "ar"]).erase
            (AspectRatio.square, "ar"))) (AspectRatio.square, "en") =
        lookupPair (create_variations [] testImg []
          (fun l => if l = "ar" then "" else "hello") [AspectRatio.square]
          ["en", "ar"]) (AspectRatio.square, "en")
    ∧ lookupPair (create_variations [] testImg []
          (fun l => if l = "ar" then "" else "hello") [AspectRatio.square]
          ["en", "ar"]) (AspectRatio.square, "ar") =
        some (Except.error (PairFailure.emptyMessage "ar")) :=
  ⟨(create_variations_isolated [] testImg []
      (fun l => if l = "ar" then "" else "hello") [AspectRatio.square] ["en", "ar"]
      (AspectRatio.square, "ar") (AspectRatio.square, "en") (by decide)).1,
   (create_variations_isolated [] testImg []
      (fun l => if l = "ar" then "" else "hello") [AspectRatio.square] ["en", "ar"]
      (AspectRatio.square, "ar") (AspectRatio.square, "en") (by decide)).2.1
     (by decide),
   (create_variations_isolated [] testImg []
      (fun l => if l = "ar" then "" else "hello") [AspectRatio.square] ["en", "ar"]
      (AspectRatio.square, "en") (AspectRatio.square, "ar") (by decide)).2.2
     (PairFailure.emptyMessage "ar") rfl⟩
